import Mathlib

/-!
Shallow embedding of the calendar synchronization engine
(`WakuSingleNodeManager` in `src/lib/locationUtils.ts` and the
connection-status aggregation in `src/hooks/useMultiWakuSync.ts`).

Conventions of the embedding:
* JavaScript `Set<string>` (insertion-ordered, duplicate-free) is a
  `List String` in insertion order; `Map<string, number>` is an
  association list in insertion order.
* `Date` values are carried as their millisecond timestamp (`Nat`);
  the composition `JSON.stringify` / `JSON.parse` / `new Date(...)`
  applied by the codec preserves that value.
* The JSON string blobs `eventData` / `eventsData` of the protobuf
  message are represented by the structured values they denote, with
  `none` standing for the empty string (a JSON serialization of an
  object or array is never the empty string, so the representation is
  faithful to string truthiness tests).
* Asynchronous methods are modelled as pure state transformers; the
  wall-clock timestamp `Date.now()` is passed in explicitly as `now`.
-/

namespace CalendarSync

/-- The `CalendarEvent` interface of `src/lib/locationUtils.ts`.
The `date : Date` field is carried as milliseconds since the epoch. -/
structure CalendarEvent where
  id : String
  title : String
  date : Nat
  time : Option String
  endTime : Option String
  calendarId : String
  description : Option String
  location : Option String
  attendees : Option (List String)
  priority : Option String
  status : Option String
  category : Option String
  url : Option String
  reminders : Option (List Nat)
  customFields : Option (List (String × String))
deriving DecidableEq, Repr

/-- The `EventSourceAction` interface: the action envelope handed to and
received from the engine.  `type` is one of the six tag strings
(`CREATE_EVENT`, `UPDATE_EVENT`, `DELETE_EVENT`, `SYNC_EVENTS`,
`SYNC_CALENDAR_DESCRIPTION`, `UNSHARE_CALENDAR`). -/
structure EventSourceAction where
  type : String
  eventId : Option String
  event : Option CalendarEvent
  events : Option (List CalendarEvent)
  calendarId : Option String
  description : Option String
  calendarName : Option String
  timestamp : Nat
  senderId : String
deriving DecidableEq, Repr

/-- The decoded protobuf `EventActionMessage`.  Every field of the
schema is present after decoding, absent fields decoding to the empty
string (respectively `none` for the JSON blob fields, see the module
comment). -/
structure WireMessage where
  type : String
  eventId : String
  eventData : Option CalendarEvent
  eventsData : Option (List CalendarEvent)
  timestamp : Nat
  senderId : String
  calendarId : String
  description : String
  calendarName : String
deriving DecidableEq, Repr

/-- The `CalendarData` interface of `src/lib/storage.ts` (only
`description` is read by `initializeSharing`). -/
structure CalendarData where
  id : String
  name : String
  color : String
  isVisible : Bool
  isShared : Option Bool
  isPrivate : Option Bool
  shareUrl : Option String
  description : Option String
  wasUnshared : Option Bool
deriving DecidableEq, Repr

/-- Association-list lookup, modelling `Map.prototype.get` (returns
`undefined`, i.e. `none`, when the key is absent). -/
def mapGet (m : List (String × Nat)) (k : String) : Option Nat :=
  match m with
  | [] => none
  | (k', v) :: rest => if k' = k then some v else mapGet rest k

/-- Association-list update, modelling `Map.prototype.set` (updates the
existing entry in place, otherwise appends in insertion order). -/
def mapSet (m : List (String × Nat)) (k : String) (v : Nat) : List (String × Nat) :=
  match m with
  | [] => [(k, v)]
  | (k', v') :: rest => if k' = k then (k, v) :: rest else (k', v') :: mapSet rest k v

/-- Association-list deletion, modelling `Map.prototype.delete`. -/
def mapDelete (m : List (String × Nat)) (k : String) : List (String × Nat) :=
  match m with
  | [] => []
  | (k', v') :: rest => if k' = k then rest else (k', v') :: mapDelete rest k

/-- Insertion into a JavaScript `Set` (`Set.prototype.add`): a no-op on
a hit, otherwise appended at the end of the insertion order. -/
def setAdd (s : List String) (x : String) : List String :=
  if x ∈ s then s else s ++ [x]

/-- The mutable state of one `WakuSingleNodeManager`: the local sender
identity, the connectivity flag, the set of calendar ids having a
channel, the deduplication ledger (`processedMessageIds`), the
per-calendar watermark map (`lastProcessedTimestamp`) and the ledger
cap (`maxProcessedMessages`, 10 000 in the source). -/
structure ManagerState where
  senderId : String
  isConnected : Bool
  channels : List String
  processedMessageIds : List String
  lastProcessedTimestamp : List (String × Nat)
  maxProcessedMessages : Nat
deriving DecidableEq, Repr

/-- The message identity string built by `handleIncomingMessage`:
`senderId-timestamp-type-(eventId || 'no-event')`. -/
def messageId (w : WireMessage) : String :=
  w.senderId ++ "-" ++ toString w.timestamp ++ "-" ++ w.type ++ "-" ++
    (if w.eventId = "" then "no-event" else w.eventId)

/-- The accessor `getLastProcessedTimestamp`: the calendar's watermark,
`0` when absent (`this.lastProcessedTimestamp.get(calendarId) || 0`). -/
def getLastProcessedTimestamp (st : ManagerState) (calendarId : String) : Nat :=
  (mapGet st.lastProcessedTimestamp calendarId).getD 0

/-- The accessor `canUseIncrementalSync`:
`this.lastProcessedTimestamp.has(calendarId)`. -/
def canUseIncrementalSync (st : ManagerState) (calendarId : String) : Bool :=
  (mapGet st.lastProcessedTimestamp calendarId).isSome

/-- The method `resetSyncState`: drops the calendar's watermark so that
the next `initializeSharing` performs a full sync. -/
def resetSyncState (st : ManagerState) (calendarId : String) : ManagerState :=
  { st with lastProcessedTimestamp := mapDelete st.lastProcessedTimestamp calendarId }

/-- The action-construction step of `handleIncomingMessage`: rebuilds an
`EventSourceAction` from a decoded wire message, mapping empty strings
back to absent fields (`decoded.x || undefined`) and reparsing the JSON
event blobs (`parseEventData` / `parseEventsData`, which reconstruct the
`date` fields through `new Date(...)`). -/
def decodeWire (w : WireMessage) : EventSourceAction :=
  { type := w.type
    eventId := if w.eventId = "" then none else some w.eventId
    event := w.eventData
    events := w.eventsData
    calendarId := if w.calendarId = "" then none else some w.calendarId
    description := if w.description = "" then none else some w.description
    calendarName := if w.calendarName = "" then none else some w.calendarName
    timestamp := w.timestamp
    senderId := w.senderId }

/-- The message-construction step of `sendEventAction`
(`EventActionMessage.create`): every absent field is sent as the empty
string, and the `calendarName` field of the schema is not populated at
all (the source omits it from the created message). -/
def encodeWire (a : EventSourceAction) : WireMessage :=
  { type := a.type
    eventId := a.eventId.getD ""
    eventData := a.event
    eventsData := a.events
    timestamp := a.timestamp
    senderId := a.senderId
    calendarId := a.calendarId.getD ""
    description := a.description.getD ""
    calendarName := "" }

/-- The inbound path `handleIncomingMessage`, applied to one decoded
wire message arriving on the channel of `calendarId`.  Returns the
updated manager state together with the action routed to the
`onEventAction` callback (`none` when the message is skipped).  The
eviction count `maxProcessedMessages * 3 / 10` is the source's
`Math.floor(this.maxProcessedMessages * 0.3)` (exact for the cap values
10 000 and 10 considered here). -/
def handleIncomingMessage (st : ManagerState) (w : WireMessage) (calendarId : String) :
    ManagerState × Option EventSourceAction :=
  if w.senderId = st.senderId then
    (st, none)
  else if messageId w ∈ st.processedMessageIds then
    (st, none)
  else if w.timestamp ≤ getLastProcessedTimestamp st calendarId ∧ w.type ≠ "SYNC_EVENTS" then
    (st, none)
  else
    let action := decodeWire w
    let ids := setAdd st.processedMessageIds (messageId w)
    let lpt :=
      if w.type = "CREATE_EVENT" ∨ w.type = "UPDATE_EVENT" ∨ w.type = "DELETE_EVENT" then
        if getLastProcessedTimestamp st calendarId < w.timestamp then
          mapSet st.lastProcessedTimestamp calendarId w.timestamp
        else st.lastProcessedTimestamp
      else st.lastProcessedTimestamp
    let ids' :=
      if st.maxProcessedMessages < ids.length then
        ids.drop (st.maxProcessedMessages * 3 / 10)
      else ids
    ({ st with processedMessageIds := ids', lastProcessedTimestamp := lpt }, some action)

/-- Sequential delivery of a list of (wire message, calendarId) pairs
through `handleIncomingMessage`, discarding the routed actions. -/
def processAll (st : ManagerState) (ws : List (WireMessage × String)) : ManagerState :=
  match ws with
  | [] => st
  | (w, cal) :: rest => processAll (handleIncomingMessage st w cal).1 rest

/-- The payload of a `sendEventAction` call before the sender identity
and timestamp are stamped on (`Omit<EventSourceAction, 'senderId' |
'timestamp'>`). -/
structure ActionDraft where
  type : String
  eventId : Option String
  event : Option CalendarEvent
  events : Option (List CalendarEvent)
  calendarId : Option String
  description : Option String
  calendarName : Option String
deriving DecidableEq, Repr

/-- The outbound path `sendEventAction`: fails (returning `false` and
publishing nothing) when the calendar has no channel or the transport is
disconnected; otherwise publishes the protobuf message built by
`EventActionMessage.create` on the calendar's channel, stamped with
`Date.now()` (`now`) and the local sender identity.  The published wire
message is returned alongside the boolean result. -/
def sendEventAction (st : ManagerState) (calendarId : String) (a : ActionDraft) (now : Nat) :
    Bool × Option (String × WireMessage) :=
  if calendarId ∉ st.channels ∨ st.isConnected = false then
    (false, none)
  else
    (true, some (calendarId,
      { type := a.type
        eventId := a.eventId.getD ""
        eventData := a.event
        eventsData := a.events
        timestamp := now
        senderId := st.senderId
        calendarId := a.calendarId.getD ""
        description := a.description.getD ""
        calendarName := "" }))

/-- The draft with every optional field absent. -/
def emptyDraft (t : String) : ActionDraft :=
  { type := t, eventId := none, event := none, events := none,
    calendarId := none, description := none, calendarName := none }

/-- The public operation `createEvent`. -/
def createEvent (st : ManagerState) (calendarId : String) (event : CalendarEvent) (now : Nat) :
    Bool × Option (String × WireMessage) :=
  sendEventAction st calendarId
    { emptyDraft "CREATE_EVENT" with eventId := some event.id, event := some event } now

/-- The public operation `updateEvent`. -/
def updateEvent (st : ManagerState) (calendarId : String) (event : CalendarEvent) (now : Nat) :
    Bool × Option (String × WireMessage) :=
  sendEventAction st calendarId
    { emptyDraft "UPDATE_EVENT" with eventId := some event.id, event := some event } now

/-- The public operation `deleteEvent`. -/
def deleteEvent (st : ManagerState) (calendarId : String) (eventId : String) (now : Nat) :
    Bool × Option (String × WireMessage) :=
  sendEventAction st calendarId { emptyDraft "DELETE_EVENT" with eventId := some eventId } now

/-- The public operation `syncEvents` (bulk historical replay). -/
def syncEvents (st : ManagerState) (calendarId : String) (events : List CalendarEvent) (now : Nat) :
    Bool × Option (String × WireMessage) :=
  sendEventAction st calendarId { emptyDraft "SYNC_EVENTS" with events := some events } now

/-- The public operation `syncCalendarDescription`. -/
def syncCalendarDescription (st : ManagerState) (calendarId : String) (description : String)
    (now : Nat) : Bool × Option (String × WireMessage) :=
  sendEventAction st calendarId
    { emptyDraft "SYNC_CALENDAR_DESCRIPTION" with
        calendarId := some calendarId, description := some description } now

/-- The public operation `unshareCalendar`. -/
def unshareCalendar (st : ManagerState) (calendarId : String) (calendarName : String)
    (now : Nat) : Bool × Option (String × WireMessage) :=
  sendEventAction st calendarId
    { emptyDraft "UNSHARE_CALENDAR" with
        calendarId := some calendarId, calendarName := some calendarName } now

/-- The public operation `initializeSharing`: fails only when the
transport is disconnected; otherwise broadcasts the calendar description
when present (and truthy), then either a full `SYNC_EVENTS` bulk message
with every event of the calendar (when `forceFullSync` is set or no
watermark exists) or an incremental one with the events strictly newer
than the watermark, in both cases only when the event list to send is
non-empty.  Returns the boolean result together with the list of
published messages in order. -/
def initializeSharing (st : ManagerState) (calendarId : String) (calendar : CalendarData)
    (events : List CalendarEvent) (forceFullSync : Bool) (now : Nat) :
    Bool × List (String × WireMessage) :=
  if st.isConnected = false then
    (false, [])
  else
    let calendarEvents := events.filter (fun e => e.calendarId = calendarId)
    let descSends :=
      match calendar.description with
      | some d => if d = "" then [] else (syncCalendarDescription st calendarId d now).2.toList
      | none => []
    let syncSends :=
      if forceFullSync = true ∨ canUseIncrementalSync st calendarId = false then
        if calendarEvents.length > 0 then (syncEvents st calendarId calendarEvents now).2.toList
        else []
      else
        let lastTimestamp := getLastProcessedTimestamp st calendarId
        let newEvents := calendarEvents.filter (fun e => lastTimestamp < e.date)
        if newEvents.length > 0 then (syncEvents st calendarId newEvents now).2.toList
        else []
    (true, descSends ++ syncSends)

/-- The percent sign, written by its code point. -/
def percentChar : Char := Char.ofNat 37

/-- Uppercase hexadecimal digit for a value below 16, as produced by the
percent-encoding of `encodeURIComponent`. -/
def hexDigitChar (n : Nat) : Char :=
  if n < 10 then Char.ofNat (48 + n) else Char.ofNat (55 + n)

/-- Value of a hexadecimal digit character (either case), as read back
by `decodeURIComponent`. -/
def hexVal (c : Char) : Option Nat :=
  if 48 ≤ c.toNat ∧ c.toNat ≤ 57 then some (c.toNat - 48)
  else if 65 ≤ c.toNat ∧ c.toNat ≤ 70 then some (c.toNat - 55)
  else if 97 ≤ c.toNat ∧ c.toNat ≤ 102 then some (c.toNat - 87)
  else none

/-- The characters `encodeURIComponent` leaves unescaped: ASCII
letters, digits, and `- _ . ! ~ * ' ( )` (given by code point). -/
def isUnreservedChar (c : Char) : Bool :=
  (65 ≤ c.toNat && c.toNat ≤ 90) || (97 ≤ c.toNat && c.toNat ≤ 122) ||
    (48 ≤ c.toNat && c.toNat ≤ 57) ||
    [45, 95, 46, 33, 126, 42, 39, 40, 41].contains c.toNat

/-- UTF-8 encoding of a Unicode code point as a list of byte values. -/
def utf8Bytes (n : Nat) : List Nat :=
  if n < 128 then [n]
  else if n < 2048 then [192 + n / 64, 128 + n % 64]
  else if n < 65536 then [224 + n / 4096, 128 + n / 64 % 64, 128 + n % 64]
  else [240 + n / 262144, 128 + n / 4096 % 64, 128 + n / 64 % 64, 128 + n % 64]

/-- Percent-encoding of one character, following the ECMAScript
`encodeURIComponent` builtin: unreserved characters pass through, every
other character is escaped as the `%HH` triples of its UTF-8 bytes. -/
def encodeChar (c : Char) : List Char :=
  if isUnreservedChar c then [c]
  else ((utf8Bytes c.toNat).map
    (fun b => [percentChar, hexDigitChar (b / 16), hexDigitChar (b % 16)])).flatten

/-- Model of the ECMAScript `encodeURIComponent` builtin. -/
def encodeURIComponent (s : String) : String :=
  ⟨(s.toList.map encodeChar).flatten⟩

/-- One token of a percent-encoded string: a literal character, or the
byte value of one `%HH` escape. -/
inductive UriToken where
  | lit (c : Char)
  | byte (b : Nat)
deriving DecidableEq, Repr

mutual

/-- First phase of `decodeURIComponent`: each `%HH` escape becomes a
byte token (two hexadecimal digits are required after every percent
sign), every other character a literal token. -/
def uriTokens : List Char → Option (List UriToken)
  | [] => some []
  | c :: rest =>
    if c = percentChar then uriHex rest
    else (uriTokens rest).map (fun ts => UriToken.lit c :: ts)
termination_by l => 2 * l.length

/-- Reads the two hexadecimal digits following a percent sign and
produces the byte token. -/
def uriHex : List Char → Option (List UriToken)
  | h1 :: h2 :: rest =>
    match hexVal h1, hexVal h2 with
    | some a, some b => (uriTokens rest).map (fun ts => UriToken.byte (16 * a + b) :: ts)
    | _, _ => none
  | _ => none
termination_by l => 2 * l.length + 1

end

/-- Whether a byte value is a UTF-8 continuation byte. -/
def isCont (b : Nat) : Bool := 128 ≤ b && b < 192

/-- Whether a code point is a Unicode scalar value (not a surrogate,
at most `0x10FFFF`); `decodeURIComponent` throws `URIError` on any
escape sequence decoding outside this set. -/
def validScalar (n : Nat) : Bool :=
  n < 55296 || (57344 ≤ n && n < 1114112)

mutual

/-- Second phase of `decodeURIComponent`: reassembles the byte tokens
of each escaped UTF-8 sequence into the encoded character (a leading
byte announces how many continuation escapes must follow); literal
characters pass through.  A malformed sequence is a failure (the
builtin throws `URIError`). -/
def uriAssemble : List UriToken → Option (List Char)
  | [] => some []
  | UriToken.lit c :: rest => (uriAssemble rest).map (fun cs => c :: cs)
  | UriToken.byte b :: rest =>
    if b < 128 then (uriAssemble rest).map (fun cs => Char.ofNat b :: cs)
    else if b < 192 then none
    else if b < 224 then uriCont 1 128 (b - 192) rest
    else if b < 240 then uriCont 2 2048 (b - 224) rest
    else if b < 248 then uriCont 3 65536 (b - 240) rest
    else none
termination_by l => 2 * l.length

/-- Consumes the given number of continuation-byte escapes,
accumulating the code point, then emits the decoded character when it
is a Unicode scalar value in shortest form (at least `lo`). -/
def uriCont : Nat → Nat → Nat → List UriToken → Option (List Char)
  | 0, lo, acc, rest =>
    if lo ≤ acc ∧ validScalar acc then
      (uriAssemble rest).map (fun cs => Char.ofNat acc :: cs)
    else none
  | need + 1, lo, acc, UriToken.byte b :: rest =>
    if isCont b then uriCont need lo (acc * 64 + (b - 128)) rest else none
  | _ + 1, _, _, UriToken.lit _ :: _ => none
  | _ + 1, _, _, [] => none
termination_by _ _ _ l => 2 * l.length + 1

end

/-- Model of the ECMAScript `decodeURIComponent` builtin, with `none`
for a thrown `URIError`. -/
def decodeURIComponent (s : String) : Option String :=
  match uriTokens s.toList with
  | some ts => (uriAssemble ts).map (fun cs => ⟨cs⟩)
  | none => none

/-- Lookup of a query parameter (`URLSearchParams.get`): the value of
the first entry with the given key, `none` (JavaScript `null`) when
absent. -/
def paramsGet (ps : List (String × String)) (k : String) : Option String :=
  match ps with
  | [] => none
  | (k', v) :: rest => if k' = k then some v else paramsGet rest k

/-- A share URL, modelled structurally: the window origin, the fixed
`/shared` path, and the ordered query parameters.  The `URLSearchParams`
serialization of the values into the URL string and the inverse parsing
by `new URL(...)` are the platform's own percent-coding round trip and
are absorbed by this representation. -/
structure ShareUrl where
  origin : String
  path : String
  params : List (String × String)
deriving DecidableEq, Repr

/-- The result record of `parseShareUrl`. -/
structure ShareInfo where
  calendarId : String
  calendarName : String
  encryptionKey : Option String
deriving DecidableEq, Repr

/-- The method `generateShareUrl`: builds the URL with query parameters
`calendar` (the id), `name` (the display name passed through
`encodeURIComponent` once more, on top of the `URLSearchParams`
serialization), and — when a truthy key is given — `key`. -/
def generateShareUrl (origin : String) (calendarId : String) (calendarName : String)
    (encryptionKey : Option String) : ShareUrl :=
  let params := [("calendar", calendarId), ("name", encodeURIComponent calendarName)]
  let params :=
    match encryptionKey with
    | some k => if k = "" then params else params ++ [("key", k)]
    | none => params
  { origin := origin, path := "/shared", params := params }

/-- The static method `parseShareUrl`: reads the `calendar`, `name` and
`key` parameters, returns `none` (JavaScript `null`) when `calendar` or
`name` is absent or empty, and decodes the name with
`decodeURIComponent` (a `URIError` escapes to the surrounding `catch`,
which also returns `null`). -/
def parseShareUrl (url : ShareUrl) : Option ShareInfo :=
  match paramsGet url.params "calendar", paramsGet url.params "name" with
  | some cid, some cname =>
    if cid = "" ∨ cname = "" then none
    else
      match decodeURIComponent cname with
      | some decoded =>
        some { calendarId := cid
               calendarName := decoded
               encryptionKey :=
                 match paramsGet url.params "key" with
                 | some k => if k = "" then none else some k
                 | none => none }
      | none => none
  | _, _ => none

/-- One of the three connection states of the engine. -/
inductive ConnStatus where
  | connected
  | disconnected
  | minimal
deriving DecidableEq, Repr

/-- The `CalendarConnection` record of `src/hooks/useMultiWakuSync.ts`.
Wherever the hook assigns these fields it sets
`isConnected = (status !== 'disconnected')`. -/
structure CalendarConnection where
  calendarId : String
  isConnected : Bool
  connectionStatus : ConnStatus
deriving DecidableEq, Repr

/-- The aggregation `updateGlobalStatus` of `useMultiWakuSync`: folds
the per-channel connections into one global status by counting the
channels whose `isConnected` flag is set. -/
def updateGlobalStatus (connections : List CalendarConnection) : ConnStatus :=
  if connections.length = 0 then ConnStatus.disconnected
  else
    let connectedCount := (connections.filter (fun conn => conn.isConnected)).length
    if connectedCount = 0 then ConnStatus.disconnected
    else if connectedCount = connections.length then ConnStatus.connected
    else ConnStatus.minimal

/-- A fresh manager state: local identity `me`, connected, one channel
for `cal-1`, empty ledger and watermark map, default cap. -/
def exSt0 : ManagerState :=
  { senderId := "me", isConnected := true, channels := ["cal-1"],
    processedMessageIds := [], lastProcessedTimestamp := [], maxProcessedMessages := 10000 }

/-- A remote single-event mutation wire message with the given
timestamp and event id. -/
def exMut (ts : Nat) (eid : String) : WireMessage :=
  { type := "CREATE_EVENT", eventId := eid, eventData := none, eventsData := none,
    timestamp := ts, senderId := "peer", calendarId := "", description := "",
    calendarName := "" }

/-- A remote bulk-sync wire message with the given timestamp. -/
def exSync (ts : Nat) (eid : String) : WireMessage :=
  { type := "SYNC_EVENTS", eventId := eid, eventData := none, eventsData := none,
    timestamp := ts, senderId := "peer", calendarId := "", description := "",
    calendarName := "" }

/-- A connected manager state that has no channel at all. -/
def exStNoChan : ManagerState :=
  { senderId := "me", isConnected := true, channels := [],
    processedMessageIds := [], lastProcessedTimestamp := [], maxProcessedMessages := 10000 }

/-- A disconnected manager state holding a channel for `cal-1`. -/
def exStDisc : ManagerState :=
  { senderId := "me", isConnected := false, channels := ["cal-1"],
    processedMessageIds := [], lastProcessedTimestamp := [], maxProcessedMessages := 10000 }

/-- A calendar record with no description. -/
def exCal : CalendarData :=
  { id := "cal-1", name := "Team", color := "#10b981", isVisible := true,
    isShared := some true, isPrivate := none, shareUrl := none, description := none,
    wasUnshared := none }

/-- A calendar record carrying a description. -/
def exCalDesc : CalendarData :=
  { exCal with description := some "about" }

/-- A minimal concrete event belonging to the given calendar, dated at
the given millisecond timestamp. -/
def exEvent (eid : String) (cal : String) (d : Nat) : CalendarEvent :=
  { id := eid, title := "t", date := d, time := none, endTime := none,
    calendarId := cal, description := none, location := none, attendees := none,
    priority := none, status := none, category := none, url := none,
    reminders := none, customFields := none }

/-- An unshare envelope carrying a calendar display name. -/
def exUnshare : EventSourceAction :=
  { type := "UNSHARE_CALENDAR", eventId := none, event := none, events := none,
    calendarId := some "cal-1", description := none, calendarName := some "Team Calendar",
    timestamp := 100, senderId := "me" }

/-- The fresh state with the ledger cap lowered to 10 (the spec's
bounded-ledger example). -/
def exCapSt : ManagerState :=
  { exSt0 with maxProcessedMessages := 10 }

/-- Fifteen unique remote mutation messages, delivered on `cal-1` with
increasing timestamps. -/
def exFlood : List (WireMessage × String) :=
  (List.range 15).map (fun i => (exMut (i + 1) "e", "cal-1"))

/-- A channel connection in the `minimal` state (as the hook builds it:
`isConnected` is true since the status is not `disconnected`). -/
def exMinimalConn : CalendarConnection :=
  { calendarId := "c1", isConnected := true, connectionStatus := ConnStatus.minimal }

/-- A channel connection in the `connected` state. -/
def exConnConn : CalendarConnection :=
  { calendarId := "c2", isConnected := true, connectionStatus := ConnStatus.connected }

/-- A channel connection in the `disconnected` state. -/
def exDiscConn : CalendarConnection :=
  { calendarId := "c3", isConnected := false, connectionStatus := ConnStatus.disconnected }

theorem mapGet_mapSet_self (m : List (String × Nat)) (k : String) (v : Nat) :
    mapGet (mapSet m k v) k = some v := by
  induction m with
  | nil => simp [mapGet, mapSet]
  | cons p rest ih =>
    by_cases h : p.1 = k
    · simp [mapGet, mapSet, h]
    · simp [mapGet, mapSet, h, ih]

theorem mapGet_mapSet_ne (m : List (String × Nat)) (k c : String) (v : Nat) (h : k ≠ c) :
    mapGet (mapSet m k v) c = mapGet m c := by
  induction m with
  | nil => simp [mapGet, mapSet, h]
  | cons p rest ih =>
    by_cases hp : p.1 = k
    · simp [mapGet, mapSet, hp, h]
    · simp [mapGet, mapSet, hp, ih]

theorem mem_drop_append_last (k : Nat) (l : List String) (x : String) (hk : k ≤ l.length) :
    x ∈ (l ++ [x]).drop k := by
  induction l generalizing k with
  | nil =>
    have : k = 0 := Nat.le_zero.mp hk
    simp [this]
  | cons a t ih =>
    cases k with
    | zero => simp
    | succ k' => simpa using ih k' (Nat.le_of_succ_le_succ hk)

theorem handleIncomingMessage_admitted (st : ManagerState) (w : WireMessage) (cal : String)
    (st' : ManagerState) (a : EventSourceAction)
    (h : handleIncomingMessage st w cal = (st', some a)) :
    st'.senderId = st.senderId ∧ messageId w ∈ st'.processedMessageIds := by
  by_cases h1 : w.senderId = st.senderId
  · simp [handleIncomingMessage, h1] at h
  by_cases h2 : messageId w ∈ st.processedMessageIds
  · simp [handleIncomingMessage, h1, h2] at h
  by_cases h3 : w.timestamp ≤ getLastProcessedTimestamp st cal ∧ w.type ≠ "SYNC_EVENTS"
  · simp [handleIncomingMessage, h1, h2, h3] at h
  · have hadd : setAdd st.processedMessageIds (messageId w) =
        st.processedMessageIds ++ [messageId w] := by
      simp [setAdd, h2]
    simp only [handleIncomingMessage, if_neg h1, if_neg h2, if_neg h3, Prod.mk.injEq] at h
    obtain ⟨hst, -⟩ := h
    subst hst
    refine ⟨rfl, ?_⟩
    simp only [hadd]
    by_cases h5 : st.maxProcessedMessages < (st.processedMessageIds ++ [messageId w]).length
    · rw [if_pos h5]
      apply mem_drop_append_last
      simp at h5
      omega
    · rw [if_neg h5]
      simp

theorem handleIncomingMessage_senderId (st : ManagerState) (w : WireMessage) (cal : String) :
    ((handleIncomingMessage st w cal).1).senderId = st.senderId := by
  by_cases h1 : w.senderId = st.senderId
  · simp [handleIncomingMessage, h1]
  by_cases h2 : messageId w ∈ st.processedMessageIds
  · simp [handleIncomingMessage, h1, h2]
  by_cases h3 : w.timestamp ≤ getLastProcessedTimestamp st cal ∧ w.type ≠ "SYNC_EVENTS"
  · simp [handleIncomingMessage, h1, h2, h3]
  · simp [handleIncomingMessage, h1, h2, h3]

theorem processAll_senderId (ws : List (WireMessage × String)) (st : ManagerState) :
    (processAll st ws).senderId = st.senderId := by
  induction ws generalizing st with
  | nil => rfl
  | cons p rest ih =>
    obtain ⟨w, cal⟩ := p
    simp only [processAll]
    rw [ih, handleIncomingMessage_senderId]

/-- C1: once an envelope from a remote sender is admitted (routed to the
action callback), its identity is recorded in the ledger, and any later
envelope carrying the same message identity (senderId, timestamp, type,
eventId) — delivered on any channel, after any sequence of intervening
messages that has not evicted the identity from the bounded set — is
rejected with the state unchanged: the ledger admits an identity at most
once, so the callback can never run twice for it. -/
theorem admitted_identity_never_readmitted (st : ManagerState) (w w2 : WireMessage)
    (cal cal2 : String) (st' : ManagerState) (a : EventSourceAction)
    (ws : List (WireMessage × String))
    (h : handleIncomingMessage st w cal = (st', some a))
    (hs : w2.senderId = w.senderId) (ht : w2.timestamp = w.timestamp)
    (hty : w2.type = w.type) (he : w2.eventId = w.eventId)
    (hkept : messageId w ∈ (processAll st' ws).processedMessageIds) :
    messageId w ∈ st'.processedMessageIds ∧
      handleIncomingMessage (processAll st' ws) w2 cal2 = (processAll st' ws, none) := by
  have hmid : messageId w2 = messageId w := by
    simp [messageId, hs, ht, hty, he]
  obtain ⟨hsender, hmem⟩ := handleIncomingMessage_admitted st w cal st' a h
  have h1 : ¬ w.senderId = st.senderId := by
    intro h1
    simp [handleIncomingMessage, h1] at h
  have h1' : ¬ w2.senderId = (processAll st' ws).senderId := by
    rw [hs, processAll_senderId, hsender]
    exact h1
  rw [← hmid] at hkept
  refine ⟨hmem, ?_⟩
  simp [handleIncomingMessage, h1', hkept]

/-- Witness for C1 at a concrete admitted message: after an intervening
admitted message from the same peer, redelivering the original envelope
is still rejected and leaves the state unchanged. -/
theorem admitted_identity_never_readmitted_witness :
    messageId (exMut 5 "e1") ∈
      ({ senderId := "me", isConnected := true, channels := ["cal-1"],
         processedMessageIds := ["peer-5-CREATE_EVENT-e1"],
         lastProcessedTimestamp := [("cal-1", 5)],
         maxProcessedMessages := 10000 } : ManagerState).processedMessageIds ∧
    handleIncomingMessage
      (processAll
        { senderId := "me", isConnected := true, channels := ["cal-1"],
          processedMessageIds := ["peer-5-CREATE_EVENT-e1"],
          lastProcessedTimestamp := [("cal-1", 5)], maxProcessedMessages := 10000 }
        [(exMut 7 "e2", "cal-1")])
      (exMut 5 "e1") "cal-1"
    = (processAll
        { senderId := "me", isConnected := true, channels := ["cal-1"],
          processedMessageIds := ["peer-5-CREATE_EVENT-e1"],
          lastProcessedTimestamp := [("cal-1", 5)], maxProcessedMessages := 10000 }
        [(exMut 7 "e2", "cal-1")], none) :=
  admitted_identity_never_readmitted exSt0 (exMut 5 "e1") (exMut 5 "e1") "cal-1" "cal-1"
    { senderId := "me", isConnected := true, channels := ["cal-1"],
      processedMessageIds := ["peer-5-CREATE_EVENT-e1"],
      lastProcessedTimestamp := [("cal-1", 5)], maxProcessedMessages := 10000 }
    (decodeWire (exMut 5 "e1")) [(exMut 7 "e2", "cal-1")]
    (by decide) rfl rfl rfl rfl (by decide)

/-- C2: with a remote sender and a fresh identity, a mutation envelope
(CREATE_EVENT, UPDATE_EVENT or DELETE_EVENT) whose timestamp is at or
below the calendar's watermark is rejected with the state unchanged,
while a SYNC_EVENTS envelope under the same conditions is still routed
to the callback. -/
theorem stale_mutation_rejected_sync_exempt (st : ManagerState) (w : WireMessage) (cal : String)
    (hsend : w.senderId ≠ st.senderId)
    (hfresh : messageId w ∉ st.processedMessageIds)
    (hold : w.timestamp ≤ getLastProcessedTimestamp st cal) :
    ((w.type = "CREATE_EVENT" ∨ w.type = "UPDATE_EVENT" ∨ w.type = "DELETE_EVENT") →
        handleIncomingMessage st w cal = (st, none)) ∧
    (w.type = "SYNC_EVENTS" →
        (handleIncomingMessage st w cal).2 = some (decodeWire w)) := by
  constructor
  · intro hty
    have hne : w.type ≠ "SYNC_EVENTS" := by
      rcases hty with h | h | h <;> simp [h]
    simp [handleIncomingMessage, hsend, hfresh, hold, hne]
  · intro hty
    simp [handleIncomingMessage, hsend, hfresh, hty]

/-- Witness for C2 at concrete inputs: after an admitted mutation at
timestamp 5, a remote mutation at timestamp 5 is dropped while a remote
bulk-sync at timestamp 5 is routed. -/
theorem stale_mutation_rejected_sync_exempt_witness :
    (handleIncomingMessage
        { exSt0 with lastProcessedTimestamp := [("cal-1", 5)] } (exMut 5 "e9") "cal-1"
      = ({ exSt0 with lastProcessedTimestamp := [("cal-1", 5)] }, none)) ∧
    ((handleIncomingMessage
        { exSt0 with lastProcessedTimestamp := [("cal-1", 5)] } (exSync 5 "e9") "cal-1").2
      = some (decodeWire (exSync 5 "e9"))) :=
  ⟨(stale_mutation_rejected_sync_exempt
      { exSt0 with lastProcessedTimestamp := [("cal-1", 5)] } (exMut 5 "e9") "cal-1"
      (by decide) (by decide) (by decide)).1 (Or.inl rfl),
   (stale_mutation_rejected_sync_exempt
      { exSt0 with lastProcessedTimestamp := [("cal-1", 5)] } (exSync 5 "e9") "cal-1"
      (by decide) (by decide) (by decide)).2 rfl⟩

/-- C3: processing any inbound message never decreases any calendar's
watermark; and in the concrete reordering scenario (mutations with
timestamps 1 < 2 < 3 delivered in the order 1, 3, 2) the first two are
admitted in order, the last is rejected, and the watermark ends at 3. -/
theorem watermark_monotone_and_ordering :
    (∀ (st : ManagerState) (w : WireMessage) (cal c : String),
        getLastProcessedTimestamp st c ≤
          getLastProcessedTimestamp ((handleIncomingMessage st w cal).1) c) ∧
    ((handleIncomingMessage exSt0 (exMut 1 "a") "cal-1").2.isSome = true ∧
      (handleIncomingMessage
        (handleIncomingMessage exSt0 (exMut 1 "a") "cal-1").1 (exMut 3 "b") "cal-1").2.isSome
        = true ∧
      (handleIncomingMessage
        (handleIncomingMessage
          (handleIncomingMessage exSt0 (exMut 1 "a") "cal-1").1 (exMut 3 "b") "cal-1").1
        (exMut 2 "c") "cal-1").2 = none ∧
      getLastProcessedTimestamp
        (handleIncomingMessage
          (handleIncomingMessage
            (handleIncomingMessage exSt0 (exMut 1 "a") "cal-1").1 (exMut 3 "b") "cal-1").1
          (exMut 2 "c") "cal-1").1 "cal-1" = 3) := by
  constructor
  · intro st w cal c
    by_cases h1 : w.senderId = st.senderId
    · simp [handleIncomingMessage, h1]
    by_cases h2 : messageId w ∈ st.processedMessageIds
    · simp [handleIncomingMessage, h1, h2]
    by_cases h3 : w.timestamp ≤ getLastProcessedTimestamp st cal ∧ w.type ≠ "SYNC_EVENTS"
    · simp [handleIncomingMessage, h1, h2, h3]
    by_cases h4 : w.type = "CREATE_EVENT" ∨ w.type = "UPDATE_EVENT" ∨ w.type = "DELETE_EVENT"
    · by_cases h5 : getLastProcessedTimestamp st cal < w.timestamp
      · by_cases h6 : c = cal
        · subst h6
          simp only [handleIncomingMessage, if_neg h1, if_neg h2, if_neg h3, if_pos h4,
            if_pos h5]
          simp [getLastProcessedTimestamp, mapGet_mapSet_self]
          exact Nat.le_of_lt h5
        · simp only [handleIncomingMessage, if_neg h1, if_neg h2, if_neg h3, if_pos h4,
            if_pos h5]
          simp [getLastProcessedTimestamp,
            mapGet_mapSet_ne st.lastProcessedTimestamp cal c w.timestamp
              (fun hcc => h6 hcc.symm)]
      · simp only [handleIncomingMessage, if_neg h1, if_neg h2, if_neg h3, if_pos h4,
          if_neg h5]
        simp [getLastProcessedTimestamp]
    · simp only [handleIncomingMessage, if_neg h1, if_neg h2, if_neg h3, if_neg h4]
      simp [getLastProcessedTimestamp]
  · exact ⟨by decide, by decide, by decide, by decide⟩

/-- C8: one inbound step keeps the deduplication ledger at or below the
cap (for any cap of at least 4, covering the source's 10 000 and the
spec's example 10), the resulting ledger is a suffix of the previous
ledger with the new identity appended (oldest-first eviction, most
recent entries retained) or is unchanged, on overflow exactly the oldest
`cap * 3 / 10` entries are dropped synchronously, and in the concrete
example (cap 10, 15 unique identities) the final ledger is within the
cap and is a suffix of the inserted identities ending at the most recent
one. -/
theorem ledger_bounded_and_evicts_oldest (st : ManagerState) (w : WireMessage) (cal : String)
    (hmax : 4 ≤ st.maxProcessedMessages)
    (hlen : st.processedMessageIds.length ≤ st.maxProcessedMessages) :
    (((handleIncomingMessage st w cal).1).processedMessageIds.length ≤
        st.maxProcessedMessages) ∧
    (List.IsSuffix (((handleIncomingMessage st w cal).1).processedMessageIds)
        (st.processedMessageIds ++ [messageId w]) ∨
      ((handleIncomingMessage st w cal).1).processedMessageIds = st.processedMessageIds) ∧
    ((handleIncomingMessage st w cal).2 ≠ none →
      st.maxProcessedMessages < st.processedMessageIds.length + 1 →
      ((handleIncomingMessage st w cal).1).processedMessageIds =
        (st.processedMessageIds ++ [messageId w]).drop (st.maxProcessedMessages * 3 / 10)) ∧
    ((processAll exCapSt exFlood).processedMessageIds.length ≤ 10 ∧
      List.isSuffixOf (processAll exCapSt exFlood).processedMessageIds
        (exFlood.map (fun p => messageId p.1)) = true ∧
      messageId (exMut 15 "e") ∈ (processAll exCapSt exFlood).processedMessageIds) := by
  by_cases h1 : w.senderId = st.senderId
  · refine ⟨?_, ?_, ?_, by decide, by decide, by decide⟩ <;>
      simp [handleIncomingMessage, h1, hlen]
  by_cases h2 : messageId w ∈ st.processedMessageIds
  · refine ⟨?_, ?_, ?_, by decide, by decide, by decide⟩ <;>
      simp [handleIncomingMessage, h1, h2, hlen]
  by_cases h3 : w.timestamp ≤ getLastProcessedTimestamp st cal ∧ w.type ≠ "SYNC_EVENTS"
  · refine ⟨?_, ?_, ?_, by decide, by decide, by decide⟩ <;>
      simp [handleIncomingMessage, h1, h2, h3, hlen]
  · have hadd : setAdd st.processedMessageIds (messageId w) =
        st.processedMessageIds ++ [messageId w] := by
      simp [setAdd, h2]
    have hids :
        ((handleIncomingMessage st w cal).1).processedMessageIds =
          if st.maxProcessedMessages < st.processedMessageIds.length + 1 then
            (st.processedMessageIds ++ [messageId w]).drop (st.maxProcessedMessages * 3 / 10)
          else st.processedMessageIds ++ [messageId w] := by
      simp only [handleIncomingMessage, if_neg h1, if_neg h2, if_neg h3, hadd]
      simp
    refine ⟨?_, ?_, ?_, by decide, by decide, by decide⟩
    · rw [hids]
      by_cases h5 : st.maxProcessedMessages < st.processedMessageIds.length + 1
      · rw [if_pos h5]
        simp only [List.length_drop, List.length_append, List.length_cons,
          List.length_nil]
        omega
      · rw [if_neg h5]
        simp only [List.length_append, List.length_cons, List.length_nil]
        omega
    · left
      rw [hids]
      by_cases h5 : st.maxProcessedMessages < st.processedMessageIds.length + 1
      · rw [if_pos h5]
        exact List.drop_suffix _ _
      · rw [if_neg h5]
    · intro _ h5
      rw [hids, if_pos h5]

/-- Witness for C8 at a concrete overflowing state (cap 4, four entries,
a fifth unique identity arriving): the ledger stays within the cap. -/
theorem ledger_bounded_and_evicts_oldest_witness :
    ((handleIncomingMessage
        { exSt0 with maxProcessedMessages := 4,
                     processedMessageIds := ["i1", "i2", "i3", "i4"] }
        (exMut 9 "e9") "cal-1").1).processedMessageIds.length ≤ 4 :=
  (ledger_bounded_and_evicts_oldest
      { exSt0 with maxProcessedMessages := 4,
                   processedMessageIds := ["i1", "i2", "i3", "i4"] }
      (exMut 9 "e9") "cal-1" (by decide) (by decide)).1

/-- C4: an inbound envelope whose senderId equals the local identity is
dropped with no state change and no routed action, regardless of its
timestamp or type. -/
theorem own_messages_never_admitted (st : ManagerState) (w : WireMessage) (cal : String)
    (h : w.senderId = st.senderId) :
    handleIncomingMessage st w cal = (st, none) := by
  simp [handleIncomingMessage, h]

/-- Witness for C4: a concrete self-echoed message is dropped. -/
theorem own_messages_never_admitted_witness :
    handleIncomingMessage exSt0
      { exMut 5 "e1" with senderId := "me" } "cal-1" = (exSt0, none) :=
  own_messages_never_admitted exSt0 { exMut 5 "e1" with senderId := "me" } "cal-1" rfl

/-- C6: the codec does not round-trip: the outbound message construction
omits the `calendarName` field of the schema, so an UNSHARE_CALENDAR
envelope carrying a display name decodes back with `calendarName`
absent.  Every other field of this envelope survives the round trip. -/
theorem codec_round_trip_drops_calendarName :
    decodeWire (encodeWire exUnshare) ≠ exUnshare ∧
    (encodeWire exUnshare).calendarName = "" ∧
    exUnshare.calendarName = some "Team Calendar" ∧
    decodeWire (encodeWire exUnshare) = { exUnshare with calendarName := none } := by
  decide

/-- Counterexample to C7: with the transport connected and no channel at
all, `initializeSharing` still returns `true` (it only checks the
connectivity flag), contradicting the claim that every listed operation
returns `false` when no channel exists for the calendar. -/
theorem initializeSharing_ignores_missing_channel :
    "cal-1" ∉ exStNoChan.channels ∧ exStNoChan.isConnected = true ∧
    (initializeSharing exStNoChan "cal-1" exCal [] false 0).1 = true := by
  decide

/-- C7 (amended): the five send operations going through
`sendEventAction` return `false` and publish nothing when the calendar
has no channel or the transport is disconnected; `initializeSharing`
returns `false` only when the transport is disconnected, and when
connected with no channel it publishes nothing but still returns
`true`. -/
theorem publish_ops_guard_behaviour (st : ManagerState) (cal : String) (ev : CalendarEvent)
    (eid desc name : String) (evs : List CalendarEvent) (calendar : CalendarData)
    (force : Bool) (now : Nat)
    (h : cal ∉ st.channels ∨ st.isConnected = false) :
    createEvent st cal ev now = (false, none) ∧
    updateEvent st cal ev now = (false, none) ∧
    deleteEvent st cal eid now = (false, none) ∧
    syncCalendarDescription st cal desc now = (false, none) ∧
    unshareCalendar st cal name now = (false, none) ∧
    (st.isConnected = false → initializeSharing st cal calendar evs force now = (false, [])) ∧
    (st.isConnected = true → cal ∉ st.channels →
      (initializeSharing st cal calendar evs force now).1 = true ∧
      (initializeSharing st cal calendar evs force now).2 = []) := by
  have hsend : ∀ a : ActionDraft, sendEventAction st cal a now = (false, none) := by
    intro a
    simp only [sendEventAction, if_pos h]
  refine ⟨?_, ?_, ?_, ?_, ?_, ?_, ?_⟩
  · simp [createEvent, hsend]
  · simp [updateEvent, hsend]
  · simp [deleteEvent, hsend]
  · simp [syncCalendarDescription, hsend]
  · simp [unshareCalendar, hsend]
  · intro hdisc
    simp [initializeSharing, hdisc]
  · intro hconn hchan
    have hsend2 : ∀ a : ActionDraft, sendEventAction st cal a now = (false, none) := by
      intro a
      simp only [sendEventAction, if_pos (Or.inl hchan)]
    rcases hd : calendar.description with _ | d
    · constructor <;>
        simp [initializeSharing, hconn, hd, syncEvents, hsend2]
    · constructor <;>
        simp [initializeSharing, hconn, hd, syncEvents, syncCalendarDescription, hsend2]

/-- Witness for C7 (amended) at a concrete disconnected state: a send
fails with `false` and `initializeSharing` fails with `false`. -/
theorem publish_ops_guard_behaviour_witness :
    createEvent exStDisc "cal-1" (exEvent "e1" "cal-1" 1) 0 = (false, none) ∧
    initializeSharing exStDisc "cal-1" exCal [] false 0 = (false, []) :=
  ⟨(publish_ops_guard_behaviour exStDisc "cal-1" (exEvent "e1" "cal-1" 1) "e" "d" "n" []
      exCal false 0 (Or.inr rfl)).1,
   (publish_ops_guard_behaviour exStDisc "cal-1" (exEvent "e1" "cal-1" 1) "e" "d" "n" []
      exCal false 0 (Or.inr rfl)).2.2.2.2.2.1 rfl⟩

/-- Counterexample to C9: a single channel in the `minimal` state (whose
`isConnected` flag is therefore set) aggregates to `connected`, not to
the `minimal` the claim prescribes for a non-empty set that is not
entirely `connected`. -/
theorem all_minimal_aggregates_to_connected :
    updateGlobalStatus [exMinimalConn] = ConnStatus.connected ∧
    updateGlobalStatus [exMinimalConn] ≠ ConnStatus.minimal ∧
    exMinimalConn.connectionStatus = ConnStatus.minimal ∧
    exMinimalConn.connectionStatus ≠ ConnStatus.disconnected := by
  decide

/-- C9 (amended): the aggregation counts the per-channel boolean
`isConnected` (true exactly when the channel is not `disconnected`), so
the global status is `disconnected` for zero channels or all channels
disconnected, `connected` when every channel (at least one) is
non-disconnected (even if only `minimal`), and `minimal` exactly for a
proper mix of non-disconnected and disconnected channels. -/
theorem status_aggregation_by_flag (conns : List CalendarConnection)
    (hinv : ∀ c ∈ conns,
      c.isConnected = decide (c.connectionStatus ≠ ConnStatus.disconnected)) :
    (conns = [] → updateGlobalStatus conns = ConnStatus.disconnected) ∧
    ((∀ c ∈ conns, c.connectionStatus = ConnStatus.disconnected) →
        updateGlobalStatus conns = ConnStatus.disconnected) ∧
    (conns ≠ [] → (∀ c ∈ conns, c.connectionStatus ≠ ConnStatus.disconnected) →
        updateGlobalStatus conns = ConnStatus.connected) ∧
    ((∃ c ∈ conns, c.connectionStatus ≠ ConnStatus.disconnected) →
      (∃ c ∈ conns, c.connectionStatus = ConnStatus.disconnected) →
        updateGlobalStatus conns = ConnStatus.minimal) := by
  refine ⟨?_, ?_, ?_, ?_⟩
  · intro h
    subst h
    simp [updateGlobalStatus]
  · intro hall
    have hfil : conns.filter (fun c => c.isConnected) = [] := by
      apply List.filter_eq_nil_iff.mpr
      intro c hc
      rw [hinv c hc, hall c hc]
      decide
    simp [updateGlobalStatus, hfil]
  · intro hne hall
    have hfil : conns.filter (fun c => c.isConnected) = conns := by
      apply List.filter_eq_self.mpr
      intro c hc
      rw [hinv c hc]
      simp [hall c hc]
    have hlen : conns.length ≠ 0 := by
      simpa [List.length_eq_zero] using hne
    simp [updateGlobalStatus, hfil, hlen]
  · rintro ⟨c1, hc1, hp1⟩ ⟨c2, hc2, hp2⟩
    have hmem : c1 ∈ conns.filter (fun c => c.isConnected) := by
      apply List.mem_filter.mpr
      refine ⟨hc1, ?_⟩
      rw [hinv c1 hc1]
      simpa using hp1
    have hpos : 0 < (conns.filter (fun c => c.isConnected)).length :=
      List.length_pos.mpr (List.ne_nil_of_mem hmem)
    have hne : (conns.filter (fun c => c.isConnected)).length ≠ conns.length := by
      intro heq
      have hself : conns.filter (fun c => c.isConnected) = conns :=
        (List.filter_sublist _).eq_of_length heq
      have := List.filter_eq_self.mp hself c2 hc2
      rw [hinv c2 hc2] at this
      simp at this
      exact this hp2
    have hlen0 : conns.length ≠ 0 := by
      have := List.length_filter_le (fun c => c.isConnected) conns
      omega
    rw [updateGlobalStatus]
    rw [if_neg hlen0]
    rw [if_neg (by omega)]
    rw [if_neg hne]

/-- Witness for C9 (amended) at the spec's three concrete examples:
no channels aggregate to disconnected, three connected channels to
connected, one connected with two disconnected to minimal. -/
theorem status_aggregation_by_flag_witness :
    updateGlobalStatus [] = ConnStatus.disconnected ∧
    updateGlobalStatus [exConnConn, exConnConn, exConnConn] = ConnStatus.connected ∧
    updateGlobalStatus [exConnConn, exDiscConn, exDiscConn] = ConnStatus.minimal :=
  ⟨(status_aggregation_by_flag [] (by decide)).1 rfl,
   (status_aggregation_by_flag [exConnConn, exConnConn, exConnConn] (by decide)).2.2.1
      (by decide) (by decide),
   (status_aggregation_by_flag [exConnConn, exDiscConn, exDiscConn] (by decide)).2.2.2
      (by decide) (by decide)⟩

/-- C5: with the transport connected and a channel present,
`initializeSharing` returns `true` and publishes, in order: first the
calendar's description whenever one is present (and non-empty), then —
exactly when `forceFullSync` is set or no watermark exists for the
calendar — one bulk SYNC_EVENTS message with every event belonging to
the calendar (only when that list is non-empty), and otherwise one
incremental SYNC_EVENTS message with exactly the belonging events whose
date is strictly newer than the current watermark (only when that list
is non-empty). -/
theorem initializeSharing_full_vs_incremental (st : ManagerState) (cid : String)
    (calendar : CalendarData) (events : List CalendarEvent) (force : Bool) (now : Nat)
    (hconn : st.isConnected = true) (hchan : cid ∈ st.channels) :
    initializeSharing st cid calendar events force now =
      (true,
        (match calendar.description with
          | some d =>
            if d = "" then []
            else [(cid,
              { type := "SYNC_CALENDAR_DESCRIPTION", eventId := "", eventData := none,
                eventsData := none, timestamp := now, senderId := st.senderId,
                calendarId := cid, description := d, calendarName := "" })]
          | none => []) ++
        (if force = true ∨ canUseIncrementalSync st cid = false then
          if 0 < (events.filter (fun e => e.calendarId = cid)).length then
            [(cid,
              { type := "SYNC_EVENTS", eventId := "", eventData := none,
                eventsData := some (events.filter (fun e => e.calendarId = cid)),
                timestamp := now, senderId := st.senderId, calendarId := "",
                description := "", calendarName := "" })]
          else []
        else
          if 0 < ((events.filter (fun e => e.calendarId = cid)).filter
              (fun e => getLastProcessedTimestamp st cid < e.date)).length then
            [(cid,
              { type := "SYNC_EVENTS", eventId := "", eventData := none,
                eventsData := some ((events.filter (fun e => e.calendarId = cid)).filter
                  (fun e => getLastProcessedTimestamp st cid < e.date)),
                timestamp := now, senderId := st.senderId, calendarId := "",
                description := "", calendarName := "" })]
          else [])) := by
  have hsend : ∀ a : ActionDraft, sendEventAction st cid a now =
      (true, some (cid,
        { type := a.type, eventId := a.eventId.getD "", eventData := a.event,
          eventsData := a.events, timestamp := now, senderId := st.senderId,
          calendarId := a.calendarId.getD "", description := a.description.getD "",
          calendarName := "" })) := by
    intro a
    rw [sendEventAction, if_neg]
    simp [hchan, hconn]
  rcases hd : calendar.description with _ | d <;>
    by_cases hfull : force = true ∨ canUseIncrementalSync st cid = false <;>
      simp [initializeSharing, hconn, hd, hfull, syncEvents, syncCalendarDescription,
        hsend, emptyDraft]

/-- Witness for C5 at concrete inputs: a full sync (no watermark yet)
sends the description and every belonging event; an incremental sync
(watermark 3) sends only the belonging event dated after the
watermark. -/
theorem initializeSharing_full_vs_incremental_witness :
    (initializeSharing exSt0 "cal-1" exCalDesc
        [exEvent "a" "cal-1" 3, exEvent "b" "x" 4] false 7 =
      (true,
        [("cal-1",
          { type := "SYNC_CALENDAR_DESCRIPTION", eventId := "", eventData := none,
            eventsData := none, timestamp := 7, senderId := "me", calendarId := "cal-1",
            description := "about", calendarName := "" }),
         ("cal-1",
          { type := "SYNC_EVENTS", eventId := "", eventData := none,
            eventsData := some [exEvent "a" "cal-1" 3], timestamp := 7, senderId := "me",
            calendarId := "", description := "", calendarName := "" })])) ∧
    (initializeSharing { exSt0 with lastProcessedTimestamp := [("cal-1", 3)] } "cal-1"
        exCal [exEvent "a" "cal-1" 3, exEvent "b" "cal-1" 5] false 7 =
      (true,
        [("cal-1",
          { type := "SYNC_EVENTS", eventId := "", eventData := none,
            eventsData := some [exEvent "b" "cal-1" 5], timestamp := 7, senderId := "me",
            calendarId := "", description := "", calendarName := "" })])) :=
  ⟨(initializeSharing_full_vs_incremental exSt0 "cal-1" exCalDesc
      [exEvent "a" "cal-1" 3, exEvent "b" "x" 4] false 7 rfl (by decide)).trans (by decide),
   (initializeSharing_full_vs_incremental
      { exSt0 with lastProcessedTimestamp := [("cal-1", 3)] } "cal-1" exCal
      [exEvent "a" "cal-1" 3, exEvent "b" "cal-1" 5] false 7 rfl (by decide)).trans
      (by decide)⟩

theorem hexVal_hexDigitChar : ∀ n : Nat, n < 16 → hexVal (hexDigitChar n) = some n := by
  decide

theorem char_scalar (c : Char) :
    c.toNat < 55296 ∨ (57344 ≤ c.toNat ∧ c.toNat < 1114112) := by
  have h : c.toNat < 55296 ∨ 57343 < c.toNat ∧ c.toNat < 1114112 := c.valid
  omega

theorem utf8Bytes_lt_256 (n : Nat) (h : n < 1114112) : ∀ b ∈ utf8Bytes n, b < 256 := by
  unfold utf8Bytes
  split_ifs <;> simp <;> omega

theorem utf8Bytes_ne_nil (n : Nat) : utf8Bytes n ≠ [] := by
  unfold utf8Bytes
  split_ifs <;> simp

theorem encodeChar_ne_nil (c : Char) : encodeChar c ≠ [] := by
  unfold encodeChar
  split_ifs with h
  · simp
  · rcases hb : utf8Bytes c.toNat with _ | ⟨b, bs⟩
    · exact absurd hb (utf8Bytes_ne_nil _)
    · simp

theorem percentChar_not_unreserved : isUnreservedChar percentChar = false := by
  decide

theorem uriTokens_percent_block (bs : List Nat) (hbs : ∀ b ∈ bs, b < 256) (t : List Char) :
    uriTokens
        ((bs.map (fun b => [percentChar, hexDigitChar (b / 16), hexDigitChar (b % 16)])).flatten
          ++ t)
      = (uriTokens t).map (fun ts => bs.map UriToken.byte ++ ts) := by
  induction bs with
  | nil =>
    simp
  | cons b bs ih =>
    have hb : b < 256 := hbs b (by simp)
    have hbs' : ∀ x ∈ bs, x < 256 := fun x hx => hbs x (by simp [hx])
    have h1 : hexVal (hexDigitChar (b / 16)) = some (b / 16) :=
      hexVal_hexDigitChar _ (by omega)
    have h2 : hexVal (hexDigitChar (b % 16)) = some (b % 16) :=
      hexVal_hexDigitChar _ (by omega)
    have hv : 16 * (b / 16) + b % 16 = b := by omega
    simp only [List.map_cons, List.flatten_cons, List.cons_append, List.nil_append,
      List.append_assoc]
    simp only [uriTokens, uriHex, eq_self_iff_true, if_true, h1, h2]
    rw [hv, ih hbs', Option.map_map]
    rfl

theorem uriAssemble_lit (c : Char) (ts : List UriToken) :
    uriAssemble (UriToken.lit c :: ts) = (uriAssemble ts).map (fun cs => c :: cs) := by
  simp only [uriAssemble]

theorem uriAssemble_utf8 (c : Char) (ts : List UriToken) :
    uriAssemble ((utf8Bytes c.toNat).map UriToken.byte ++ ts)
      = (uriAssemble ts).map (fun cs => c :: cs) := by
  have hvalid := char_scalar c
  have hofn : Char.ofNat c.toNat = c := Char.ofNat_toNat c
  have hscal : validScalar c.toNat = true := by
    simp only [validScalar, Bool.or_eq_true, Bool.and_eq_true, decide_eq_true_eq]
    omega
  by_cases h1 : c.toNat < 128
  · simp only [utf8Bytes, if_pos h1, List.map_cons, List.map_nil, List.cons_append,
      List.nil_append]
    simp only [uriAssemble, if_pos h1, hofn]
  · by_cases h2 : c.toNat < 2048
    · have e1 : ¬ (192 + c.toNat / 64 < 128) := by omega
      have e2 : ¬ (192 + c.toNat / 64 < 192) := by omega
      have e3 : 192 + c.toNat / 64 < 224 := by omega
      have e4 : isCont (128 + c.toNat % 64) = true := by
        simp only [isCont, Bool.and_eq_true, decide_eq_true_eq]
        omega
      have e5 : (192 + c.toNat / 64 - 192) * 64 + (128 + c.toNat % 64 - 128) = c.toNat := by
        omega
      have hlo : 128 ≤ c.toNat := by omega
      simp only [utf8Bytes, if_neg h1, if_pos h2, List.map_cons, List.map_nil,
        List.cons_append, List.nil_append]
      simp only [uriAssemble, if_neg e1, if_neg e2, if_pos e3]
      simp only [uriCont, e4, if_true]
      rw [e5]
      rw [if_pos (And.intro hlo hscal)]
      simp only [hofn]
    · by_cases h3 : c.toNat < 65536
      · have e1 : ¬ (224 + c.toNat / 4096 < 128) := by omega
        have e2 : ¬ (224 + c.toNat / 4096 < 192) := by omega
        have e3 : ¬ (224 + c.toNat / 4096 < 224) := by omega
        have e3' : 224 + c.toNat / 4096 < 240 := by omega
        have e4 : isCont (128 + c.toNat / 64 % 64) = true := by
          simp only [isCont, Bool.and_eq_true, decide_eq_true_eq]
          omega
        have e4' : isCont (128 + c.toNat % 64) = true := by
          simp only [isCont, Bool.and_eq_true, decide_eq_true_eq]
          omega
        have e5 : ((224 + c.toNat / 4096 - 224) * 64 + (128 + c.toNat / 64 % 64 - 128)) * 64
            + (128 + c.toNat % 64 - 128) = c.toNat := by
          omega
        have hlo : 2048 ≤ c.toNat := by omega
        simp only [utf8Bytes, if_neg h1, if_neg h2, if_pos h3, List.map_cons, List.map_nil,
          List.cons_append, List.nil_append]
        simp only [uriAssemble, if_neg e1, if_neg e2, if_neg e3, if_pos e3']
        simp only [uriCont, e4, e4', if_true]
        rw [e5]
        rw [if_pos (And.intro hlo hscal)]
        simp only [hofn]
      · have hup : c.toNat < 1114112 := by omega
        have e1 : ¬ (240 + c.toNat / 262144 < 128) := by omega
        have e2 : ¬ (240 + c.toNat / 262144 < 192) := by omega
        have e3 : ¬ (240 + c.toNat / 262144 < 224) := by omega
        have e3' : ¬ (240 + c.toNat / 262144 < 240) := by omega
        have e3'' : 240 + c.toNat / 262144 < 248 := by omega
        have e4 : isCont (128 + c.toNat / 4096 % 64) = true := by
          simp only [isCont, Bool.and_eq_true, decide_eq_true_eq]
          omega
        have e4' : isCont (128 + c.toNat / 64 % 64) = true := by
          simp only [isCont, Bool.and_eq_true, decide_eq_true_eq]
          omega
        have e4'' : isCont (128 + c.toNat % 64) = true := by
          simp only [isCont, Bool.and_eq_true, decide_eq_true_eq]
          omega
        have e5 : (((240 + c.toNat / 262144 - 240) * 64 + (128 + c.toNat / 4096 % 64 - 128))
              * 64 + (128 + c.toNat / 64 % 64 - 128)) * 64 + (128 + c.toNat % 64 - 128)
            = c.toNat := by
          omega
        have hlo : 65536 ≤ c.toNat := by omega
        simp only [utf8Bytes, if_neg h1, if_neg h2, if_neg h3, List.map_cons, List.map_nil,
          List.cons_append, List.nil_append]
        simp only [uriAssemble, if_neg e1, if_neg e2, if_neg e3, if_neg e3', if_pos e3'']
        simp only [uriCont, e4, e4', e4'', if_true]
        rw [e5]
        rw [if_pos (And.intro hlo hscal)]
        simp only [hofn]

theorem uriTokens_encode_append (cs : List Char) (t : List Char) :
    uriTokens ((cs.map encodeChar).flatten ++ t)
      = (uriTokens t).map (fun ts =>
          (cs.map (fun c =>
            if isUnreservedChar c then [UriToken.lit c]
            else (utf8Bytes c.toNat).map UriToken.byte)).flatten ++ ts) := by
  induction cs with
  | nil => simp
  | cons c cs ih =>
    by_cases h : isUnreservedChar c
    · have hne : ¬ c = percentChar := by
        intro hc
        rw [hc, percentChar_not_unreserved] at h
        exact Bool.false_ne_true h
      simp only [List.map_cons, List.flatten_cons, List.cons_append, List.nil_append,
        List.append_assoc, encodeChar, if_pos h]
      simp only [uriTokens, if_neg hne, ih, Option.map_map]
      rfl
    · simp only [List.map_cons, List.flatten_cons, List.cons_append, List.append_assoc,
        encodeChar, if_neg h]
      rw [uriTokens_percent_block (utf8Bytes c.toNat)
        (utf8Bytes_lt_256 c.toNat (by rcases char_scalar c with h' | h' <;> omega)) _]
      rw [ih, Option.map_map]
      rfl

theorem uriAssemble_encode_append (cs : List Char) (ts : List UriToken) :
    uriAssemble
        ((cs.map (fun c =>
          if isUnreservedChar c then [UriToken.lit c]
          else (utf8Bytes c.toNat).map UriToken.byte)).flatten ++ ts)
      = (uriAssemble ts).map (fun l => cs ++ l) := by
  induction cs with
  | nil => simp
  | cons c cs ih =>
    by_cases h : isUnreservedChar c
    · simp only [List.map_cons, List.flatten_cons, List.cons_append, List.nil_append,
        List.append_assoc, if_pos h]
      rw [uriAssemble_lit, ih, Option.map_map]
      rfl
    · simp only [List.map_cons, List.flatten_cons, List.nil_append, List.append_assoc,
        if_neg h]
      rw [uriAssemble_utf8, ih, Option.map_map]
      rfl

theorem decodeURIComponent_encodeURIComponent (s : String) :
    decodeURIComponent (encodeURIComponent s) = some s := by
  have htok : uriTokens ((s.toList.map encodeChar).flatten)
      = some ((s.toList.map (fun c =>
          if isUnreservedChar c then [UriToken.lit c]
          else (utf8Bytes c.toNat).map UriToken.byte)).flatten) := by
    have := uriTokens_encode_append s.toList []
    simpa [uriTokens] using this
  have hasm : uriAssemble ((s.toList.map (fun c =>
        if isUnreservedChar c then [UriToken.lit c]
        else (utf8Bytes c.toNat).map UriToken.byte)).flatten) = some s.toList := by
    have := uriAssemble_encode_append s.toList []
    simpa [uriAssemble] using this
  show (match uriTokens ((⟨(s.toList.map encodeChar).flatten⟩ : String).toList) with
    | some ts => (uriAssemble ts).map (fun cs => (⟨cs⟩ : String))
    | none => none) = some s
  have hdata : (⟨(s.toList.map encodeChar).flatten⟩ : String).toList
      = (s.toList.map encodeChar).flatten := rfl
  rw [hdata, htok]
  simp only [hasm, Option.map_some]
  rfl

theorem encodeURIComponent_ne_empty (s : String) (h : s ≠ "") :
    encodeURIComponent s ≠ "" := by
  intro habs
  apply h
  rcases hl : s.toList with _ | ⟨c, cs⟩
  · cases s with
    | mk data =>
      have hd : data = [] := by simpa [String.toList] using hl
      subst hd
      rfl
  · exfalso
    have hl' : s.data = c :: cs := hl
    have : encodeURIComponent s
        = ⟨(encodeChar c ++ (cs.map encodeChar).flatten : List Char)⟩ := by
      simp [encodeURIComponent, String.toList, hl']
    rw [this] at habs
    have hnil : encodeChar c ++ (cs.map encodeChar).flatten = ([] : List Char) := by
      have := congrArg String.toList habs
      simpa using this
    rcases he : encodeChar c with _ | ⟨x, xs⟩
    · exact encodeChar_ne_nil c he
    · rw [he] at hnil
      simp at hnil

/-- C10: parsing a generated share URL recovers the calendar id, the
display name and the optional non-empty key exactly; and when the
calendar id or the display name is empty, parsing returns null. -/
theorem shareUrl_round_trip (origin cid name : String) (key : Option String)
    (hkey : key = none ∨ ∃ k, key = some k ∧ k ≠ "") :
    (cid ≠ "" → name ≠ "" →
      parseShareUrl (generateShareUrl origin cid name key) =
        some { calendarId := cid, calendarName := name, encryptionKey := key }) ∧
    ((cid = "" ∨ name = "") →
      parseShareUrl (generateShareUrl origin cid name key) = none) := by
  have henc := decodeURIComponent_encodeURIComponent name
  constructor
  · intro hcid hname
    have hne := encodeURIComponent_ne_empty name hname
    rcases hkey with hk | ⟨k, hk, hkne⟩ <;> subst hk
    · simp [generateShareUrl, parseShareUrl, paramsGet, hcid, hne, henc]
    · simp [generateShareUrl, parseShareUrl, paramsGet, hcid, hne, henc, hkne]
  · intro hempty
    rcases hempty with hc | hn
    · subst hc
      rcases hkey with hk | ⟨k, hk, hkne⟩ <;> subst hk <;>
        simp [generateShareUrl, parseShareUrl, paramsGet, *]
    · subst hn
      have hence : encodeURIComponent "" = "" := rfl
      rcases hkey with hk | ⟨k, hk, hkne⟩ <;> subst hk <;>
        simp [generateShareUrl, parseShareUrl, paramsGet, hence, *]

/-- Witness for C10: a concrete round trip with a key and a
space-containing name, and a concrete rejection of an empty id. -/
theorem shareUrl_round_trip_witness :
    parseShareUrl (generateShareUrl "https://app" "cal-1" "My Calendar" (some "k1")) =
      some { calendarId := "cal-1", calendarName := "My Calendar",
             encryptionKey := some "k1" } ∧
    parseShareUrl (generateShareUrl "https://app" "" "Nom" none) = none :=
  ⟨(shareUrl_round_trip "https://app" "cal-1" "My Calendar" (some "k1")
      (Or.inr ⟨"k1", rfl, by decide⟩)).1 (by decide) (by decide),
   (shareUrl_round_trip "https://app" "" "Nom" none (Or.inl rfl)).2 (Or.inl rfl)⟩

end CalendarSync
